import Mathlib

/-
Verification of the livebg procedural point-field animation engine.

The JavaScript sources under src/livebg/animations are embedded shallowly:
  - JavaScript numbers are idealised as rationals; NaN is modelled by the
    none case of an Option, since the clamping pipeline in the sources
    propagates NaN through Math.floor, Math.max and Math.min.
  - The mutable per-animation closure state of templateField.js,
    orbitField.js and fireField.js becomes explicit record types, and each
    closure function becomes a state-passing Lean function.
  - Math.random is modelled by an explicit supply of draws (a function from
    a draw index to a rational) together with a cursor kept in the state;
    the transcendental layout math applied to the draws is abstracted as a
    layout parameter, since none of the verified properties depend on it.
  - Canvas drawing calls, requestAnimationFrame scheduling and the resize
    listener are outside the state model; the onStats callback is modelled
    by returning the list of emitted stats events.
-/

namespace LiveBG

/-- A JavaScript number idealised: some q is a finite value, none is NaN. -/
abbrev JsNum := Option ℚ

/-- JavaScript multiplication: NaN propagates. -/
def jsMul : JsNum → JsNum → JsNum
  | some a, some b => some (a * b)
  | _, _ => none

/-- Math.floor: floor toward negative infinity, NaN maps to NaN. -/
def jsFloor : JsNum → JsNum
  | some a => some ((⌊a⌋ : ℤ) : ℚ)
  | none => none

/-- Math.max on two arguments: NaN if either argument is NaN. -/
def jsMax : JsNum → JsNum → JsNum
  | some a, some b => some (max a b)
  | _, _ => none

/-- Math.min on two arguments: NaN if either argument is NaN. -/
def jsMin : JsNum → JsNum → JsNum
  | some a, some b => some (min a b)
  | _, _ => none

/-- JavaScript strict equality on numbers: NaN is equal to nothing,
not even itself. -/
def jsEq : JsNum → JsNum → Bool
  | some a, some b => a == b
  | _, _ => false

/-- JavaScript strict equality between an array length and a number. -/
def jsEqNat (n : ℕ) : JsNum → Bool
  | some q => q == (n : ℚ)
  | none => false

/-- Length handed to a typed-array constructor: NaN yields length 0
(ToIndex of NaN is 0); a finite value is truncated to a natural.
All values reaching this point in the sources are integers in the
clamp range or NaN. -/
def jsToLength : JsNum → ℕ
  | some q => (⌊q⌋).toNat
  | none => 0

/-- The point budget of templateField.js, orbitField.js, swirlField.js and
vortex3.js, line for line:
target = Math.min(maxPoints, Math.max(minPoints, Math.floor(density*W*H))). -/
def computeTarget (minPts maxPts : ℚ) (density : JsNum) (W H : ℚ) : JsNum :=
  jsMin (some maxPts) (jsMax (some minPts) (jsFloor (jsMul density (some (W * H)))))

/-- The realized count lies inside the field bounds. -/
def jsInBounds (minPts maxPts : ℚ) (v : JsNum) : Prop :=
  ∃ q : ℚ, v = some q ∧ minPts ≤ q ∧ q ≤ maxPts

/-- One call to the onStats callback, by payload field. -/
inductive StatsEvent where
  | points (v : JsNum)
  | speedStat (v : ℚ)
  | zoomStat (v : ℚ)
deriving DecidableEq, Repr

/-- The closure state of createAnimation in templateField.js: canvas size,
density, the point field, the UI knobs and the internal time state.
rngIdx is the cursor into the Math.random supply. -/
@[ext]
structure TField where
  W : ℚ
  H : ℚ
  baseDensity : JsNum
  N : JsNum
  pts : List (ℚ × ℚ)
  rngIdx : ℕ
  speed : ℚ
  zoom : ℚ
  zoomAuto : Bool
  zoomPhase : ℚ
  running : Bool
  last : ℚ
  t : ℚ
  fpsEMA : ℚ
deriving DecidableEq

/-- The particle generation loop of rebuildPointField in templateField.js:
particle i consumes the two Math.random draws u, v at positions
start + 2i and start + 2i + 1 of the supply; layout stands for the
disc map (sqrt u * cos (2 pi v), sqrt u * sin (2 pi v)). -/
def buildPts (layout : ℚ → ℚ → ℚ × ℚ) (rng : ℕ → ℚ) (start n : ℕ) : List (ℚ × ℚ) :=
  (List.range n).map (fun i => layout (rng (start + 2 * i)) (rng (start + 2 * i + 1)))

/-- rebuildPointField of templateField.js, lines 121 to 155: compute the
clamped target; if it strictly equals N and the array length strictly
equals the target, report the current count and return; otherwise
regenerate the arrays from the random supply and report the new count. -/
def rebuildPointField (layout : ℚ → ℚ → ℚ × ℚ) (rng : ℕ → ℚ) (st : TField) :
    TField × List StatsEvent :=
  let target := computeTarget 6000 120000 st.baseDensity st.W st.H
  if jsEq target st.N && jsEqNat st.pts.length target then
    (st, [StatsEvent.points st.N])
  else
    let n := jsToLength target
    ({ st with
        N := target
        pts := buildPts layout rng st.rngIdx n
        rngIdx := st.rngIdx + 2 * n },
     [StatsEvent.points target])

/-- An argument to setParams: each field either absent or a value. -/
structure ParamsMsg where
  speed : Option ℚ
  density : Option JsNum
  zoom : Option ℚ
  zoomAuto : Option Bool

/-- setParams of templateField.js, lines 289 to 313. Returns the new state,
the emitted stats events in order, and how many times rebuildPointField
was invoked. -/
def setParams (layout : ℚ → ℚ → ℚ × ℚ) (rng : ℕ → ℚ) (p : ParamsMsg) (st : TField) :
    TField × List StatsEvent × ℕ :=
  let s1 : TField × List StatsEvent :=
    match p.speed with
    | some v => ({ st with speed := v }, [StatsEvent.speedStat v])
    | none => (st, [])
  let s2 : TField × List StatsEvent × ℕ :=
    match p.density with
    | some v =>
        let r := rebuildPointField layout rng { s1.1 with baseDensity := v }
        (r.1, s1.2 ++ r.2, 1)
    | none => (s1.1, s1.2, 0)
  let s3 : TField × List StatsEvent × ℕ :=
    match p.zoom with
    | some v => ({ s2.1 with zoom := v }, s2.2.1 ++ [StatsEvent.zoomStat v], s2.2.2)
    | none => s2
  match p.zoomAuto with
  | some b =>
      ({ s3.1 with zoomAuto := b, zoomPhase := if b then s3.1.zoomPhase else 0 },
       s3.2.1, s3.2.2)
  | none => s3

/-- The state effect of one frame of loop in templateField.js, lines 169
to 191: bail out when not running, clamp the elapsed delta below by
0.0001 seconds, update the fps moving average, advance t by
dt * speed * 60, and advance zoomPhase by dt when zoomAuto is on.
Drawing and the stats report do not change the state and are omitted. -/
def loopStep (now : ℚ) (st : TField) : TField :=
  if st.running then
    let dt := max (1 / 10000) ((now - st.last) / 1000)
    { st with
        last := now
        fpsEMA := st.fpsEMA * (9 / 10) + (1 / dt) * (1 / 10)
        t := st.t + dt * st.speed * 60
        zoomPhase := if st.zoomAuto then st.zoomPhase + dt else st.zoomPhase }
  else st

/-- Run a sequence of frames, each arriving the given number of
milliseconds after the previous frame timestamp. -/
def runGaps (gaps : List ℚ) (st : TField) : TField :=
  gaps.foldl (fun s g => loopStep (s.last + g) s) st

/-- play of templateField.js, lines 266 to 271: a no-op when already
running, otherwise set running and reset the last timestamp to the
current time. Frame scheduling is outside the state model. -/
def play (now : ℚ) (st : TField) : TField :=
  if st.running then st else { st with running := true, last := now }

/-- pause of templateField.js, lines 273 to 279: clear running. Cancelling
the scheduled frame is outside the state model. -/
def pause (st : TField) : TField :=
  { st with running := false }

/-- reset of templateField.js, lines 281 to 285. -/
def templateReset (st : TField) : TField :=
  { st with t := 0, zoomPhase := 0 }

/-- The closure state of createAnimation in orbitField.js. The point
layout there is deterministic, so no random cursor is kept. -/
@[ext]
structure OField where
  W : ℚ
  H : ℚ
  baseDensity : JsNum
  N : JsNum
  pts : List (ℚ × ℚ)
  speed : ℚ
  zoom : ℚ
  zoomAuto : Bool
  zoomPhase : ℚ
  running : Bool
  last : ℚ
  t : ℚ
  fpsEMA : ℚ
deriving DecidableEq

/-- The base attributes of orbit particle i, from rebuildPointField in
orbitField.js, lines 52 to 56: xVals of i is (i+1) mod 200 and yVals of
i is (i+1)/43, pure functions of the index. -/
def orbitLayout (i : ℕ) : ℚ × ℚ :=
  ((((i + 1) % 200 : ℕ) : ℚ), ((i : ℚ) + 1) / 43)

/-- The full orbit base arrays at a given count. -/
def orbitBuildArrays (n : ℕ) : List (ℚ × ℚ) :=
  (List.range n).map orbitLayout

/-- rebuildPointField of orbitField.js, lines 43 to 58: compute the clamped
target; when it strictly equals N return with no stats report; otherwise
regenerate the arrays from the index formulas and report the new count. -/
def orbitRebuildPointField (st : OField) : OField × List StatsEvent :=
  let target := computeTarget 6000 120000 st.baseDensity st.W st.H
  if jsEq target st.N then
    (st, [])
  else
    ({ st with N := target, pts := orbitBuildArrays (jsToLength target) },
     [StatsEvent.points target])

/-- reset of orbitField.js, lines 174 to 176: only t is zeroed. -/
def orbitReset (st : OField) : OField :=
  { st with t := 0 }

/-- Minimum of a projection over the points of a frame. The source
initialises with Infinity and folds over the draw loop; for a nonempty
list that equals folding from the first element, which is how it is
modelled here (the empty case never draws and is given a dummy value). -/
def minOver (f : ℚ × ℚ → ℚ) : List (ℚ × ℚ) → ℚ
  | [] => 0
  | p :: ps => ps.foldl (fun m q => min m (f q)) (f p)

/-- Maximum of a projection over the points of a frame. -/
def maxOver (f : ℚ × ℚ → ℚ) : List (ℚ × ℚ) → ℚ
  | [] => 0
  | p :: ps => ps.foldl (fun m q => max m (f q)) (f p)

/-- The bounding-box span with the JavaScript fallback:
bw = maxX - minX or 1 when that difference is 0. -/
def bboxSpan (lo hi : ℚ) : ℚ :=
  if hi - lo = 0 then 1 else hi - lo

/-- The fitted scale of one orbit frame, from loop in orbitField.js lines
111 to 115: baseScale = min(W*0.92/bw, H*0.92/bh), scale = baseScale
times the effective zoom. 0.92 is written 23/25. -/
def orbitScale (W H z : ℚ) (pts : List (ℚ × ℚ)) : ℚ :=
  min (W * (23 / 25) / bboxSpan (minOver Prod.fst pts) (maxOver Prod.fst pts))
      (H * (23 / 25) / bboxSpan (minOver Prod.snd pts) (maxOver Prod.snd pts)) * z

/-- The horizontal offset of one orbit frame, lines 117 to 121:
offX = W/2 - midX*scale. -/
def orbitOffX (W H z : ℚ) (pts : List (ℚ × ℚ)) : ℚ :=
  W * (1 / 2) -
    (minOver Prod.fst pts + maxOver Prod.fst pts) * (1 / 2) * orbitScale W H z pts

/-- The vertical offset of one orbit frame, lines 117 to 122. -/
def orbitOffY (W H z : ℚ) (pts : List (ℚ × ℚ)) : ℚ :=
  H * (1 / 2) -
    (minOver Prod.snd pts + maxOver Prod.snd pts) * (1 / 2) * orbitScale W H z pts

/-- The screen positions of one orbit frame, lines 144 to 148: each
transformed point (mx, my) maps to (mx*scale + offX, my*scale + offY).
The transformed points themselves are the input list; the engine computes
them identically in the bounding-box pass and the draw pass. -/
def orbitFrameMap (W H z : ℚ) (pts : List (ℚ × ℚ)) : List (ℚ × ℚ) :=
  pts.map (fun p =>
    (p.1 * orbitScale W H z pts + orbitOffX W H z pts,
     p.2 * orbitScale W H z pts + orbitOffY W H z pts))

/-- The in-place diffusion pass of stepFire in fireField.js, lines 99 to
107, processing fuel many cells starting at index i: each cell is
overwritten by the quarter-scaled sum of itself and its right, below and
below-right neighbours, reading whatever the buffer holds at that moment
exactly as the source loop does. -/
def diffuseAux (gw : ℕ) : ℕ → (ℕ → ℚ) → ℕ → (ℕ → ℚ)
  | 0, b, _ => b
  | n + 1, b, i =>
      diffuseAux gw n
        (Function.update b i ((b i + b (i + 1) + b (i + gw) + b (i + gw + 1)) * (1 / 4)))
        (i + 1)

/-- The diffusion pass over the whole grid. -/
def diffuse (gw gs : ℕ) (b : ℕ → ℚ) : ℕ → ℚ :=
  diffuseAux gw gs b 0

/-- The in-place decay pass of stepFire, lines 110 to 112: every grid cell
is multiplied by 0.985, written 197/200. -/
def decayAux : ℕ → (ℕ → ℚ) → ℕ → (ℕ → ℚ)
  | 0, b, _ => b
  | n + 1, b, i => decayAux n (Function.update b i (b i * (197 / 200))) (i + 1)

/-- The decay pass over the whole grid. -/
def decay (gs : ℕ) (b : ℕ → ℚ) : ℕ → ℚ :=
  decayAux gs b 0

/-- The seeding pass of stepFire, lines 92 to 96: each seed writes
60 + r in a random bottom-row column; the list carries the random
column and the random variation r of each write. -/
def seedCells (gw gh : ℕ) (seeds : List (ℕ × ℚ)) (b : ℕ → ℚ) : ℕ → ℚ :=
  seeds.foldl (fun acc sv => Function.update acc (sv.1 + gw * (gh - 1)) (60 + sv.2)) b

/-- One simulation step of stepFire: seed, then diffuse, then decay, on a
grid of gridW by gridH cells. -/
def fireSimStep (gw gh : ℕ) (seeds : List (ℕ × ℚ)) (b : ℕ → ℚ) : ℕ → ℚ :=
  decay (gw * gh) (diffuse gw (gw * gh) (seedCells gw gh seeds b))

/-- stepFire of fireField.js, lines 83 to 114, run for one simulation step
per element of the outer list; each element lists that step's seeds, so
zero seeding is the list of empty lists. -/
def stepFire (gw gh : ℕ) (seedss : List (List (ℕ × ℚ))) (b : ℕ → ℚ) : ℕ → ℚ :=
  seedss.foldl (fun acc seeds => fireSimStep gw gh seeds acc) b

/-- The closure state of createAnimation in fireField.js that reset
touches: the grid dimensions, the intensity buffer with its allocated
length gridSize + gridW + 1, the zoom phase and the run flag. -/
structure FireState where
  gridW : ℕ
  gridH : ℕ
  buffer : ℕ → ℚ
  bufLen : ℕ
  zoomPhase : ℚ
  running : Bool

/-- reset of fireField.js, lines 223 to 226: fill the whole allocated
buffer with 0 and zero the zoom phase. -/
def fireReset (st : FireState) : FireState :=
  { st with
      buffer := fun i => if i < st.bufLen then 0 else st.buffer i
      zoomPhase := 0 }

/-- A concrete running templateField state: an 800 by 600 viewport at
density 0.005, the spec's own worked example, speed 0.5. -/
def st0 : TField :=
  { W := 800
    H := 600
    baseDensity := some (1 / 200)
    N := some 6000
    pts := []
    rngIdx := 0
    speed := 1 / 2
    zoom := 1
    zoomAuto := false
    zoomPhase := 0
    running := true
    last := 0
    t := 0
    fpsEMA := 60 }

/-- A concrete orbitField state whose point field is already built and
whose clamped target equals its current count, so a rebuild is a no-op. -/
def ost0 : OField :=
  { W := 800
    H := 600
    baseDensity := some (1 / 200)
    N := some 6000
    pts := orbitBuildArrays 6000
    speed := 1 / 20
    zoom := 1
    zoomAuto := true
    zoomPhase := 5
    running := true
    last := 0
    t := 7
    fpsEMA := 60 }

/-- The buffer of the fire counterexample: one hot cell at index 1. -/
def fireCexBuf : ℕ → ℚ :=
  fun j => if j = 1 then 40 else 0

/-- A second concrete orbitField state: a different density and prior
count whose clamped target is nevertheless the same 6000 as that of the
first concrete orbit state. -/
def ost1 : OField :=
  { W := 800
    H := 600
    baseDensity := some (1 / 100000)
    N := some 7000
    pts := orbitBuildArrays 7000
    speed := 1 / 20
    zoom := 1
    zoomAuto := false
    zoomPhase := 0
    running := true
    last := 0
    t := 0
    fpsEMA := 60 }

/-- A concrete fireField state for the reset witness. -/
def fst0 : FireState :=
  { gridW := 24
    gridH := 18
    buffer := fun j => if j = 1 then 40 else 0
    bufLen := 24 * 18 + 24 + 1
    zoomPhase := 3
    running := true }

theorem jsEq_eq_true {a b : JsNum} (h : jsEq a b = true) : a = b := by
  cases a with
  | none => cases b <;> simp [jsEq] at h
  | some x =>
      cases b with
      | none => simp [jsEq] at h
      | some y => simp only [jsEq, beq_iff_eq] at h; exact congrArg some h

theorem computeTarget_some (minPts maxPts d W H : ℚ) :
    computeTarget minPts maxPts (some d) W H
      = some (min maxPts (max minPts ((⌊d * (W * H)⌋ : ℤ) : ℚ))) := rfl

theorem computeTarget_none (minPts maxPts : ℚ) (W H : ℚ) :
    computeTarget minPts maxPts none W H = none := rfl

theorem rebuild_N (layout : ℚ → ℚ → ℚ × ℚ) (rng : ℕ → ℚ) (st : TField) :
    (rebuildPointField layout rng st).1.N
      = computeTarget 6000 120000 st.baseDensity st.W st.H := by
  rw [rebuildPointField]
  split
  next h =>
    have h1 : jsEq (computeTarget 6000 120000 st.baseDensity st.W st.H) st.N = true :=
      ((Bool.and_eq_true _ _).mp h).1
    exact (jsEq_eq_true h1).symm
  next _ => rfl

/-- C1: for every field's bounds, density d and viewport, the clamped
target equals clamp(floor(d*W*H), minPoints, maxPoints); any realized
value is within bounds; the target equals floor(d*W*H) whenever that lies
within bounds; and the rebuild of templateField.js realizes exactly that
clamped count for its constant bounds 6000 and 120000. -/
theorem pointCount_clamp (minPts maxPts d W H : ℚ) (hb : minPts ≤ maxPts) :
    computeTarget minPts maxPts (some d) W H
        = some (min maxPts (max minPts ((⌊d * (W * H)⌋ : ℤ) : ℚ)))
      ∧ (∀ q : ℚ, computeTarget minPts maxPts (some d) W H = some q →
          minPts ≤ q ∧ q ≤ maxPts)
      ∧ (minPts ≤ ((⌊d * (W * H)⌋ : ℤ) : ℚ) → ((⌊d * (W * H)⌋ : ℤ) : ℚ) ≤ maxPts →
          computeTarget minPts maxPts (some d) W H = some ((⌊d * (W * H)⌋ : ℤ) : ℚ))
      ∧ (∀ (layout : ℚ → ℚ → ℚ × ℚ) (rng : ℕ → ℚ) (st : TField),
          st.baseDensity = some d → st.W = W → st.H = H →
          (rebuildPointField layout rng st).1.N
            = some (min 120000 (max 6000 ((⌊d * (W * H)⌋ : ℤ) : ℚ)))) := by
  refine ⟨computeTarget_some _ _ _ _ _, ?_, ?_, ?_⟩
  · intro q hq
    rw [computeTarget_some] at hq
    have hq' : q = min maxPts (max minPts ((⌊d * (W * H)⌋ : ℤ) : ℚ)) :=
      (Option.some.injEq _ _ ▸ hq).symm
    constructor
    · rw [hq']
      exact le_min hb (le_max_left _ _)
    · rw [hq']
      exact min_le_left _ _
  · intro h1 h2
    rw [computeTarget_some, max_eq_right h1, min_eq_right h2]
  · intro layout rng st hd hW hH
    rw [rebuild_N, hd, hW, hH, computeTarget_some]

/-- Witness for C1 at the spec's worked example: density 0.005 on an
800 by 600 viewport. -/
theorem pointCount_clamp_witness :
    (6000 : ℚ) ≤ 120000 ∧
      (computeTarget 6000 120000 (some (1 / 200)) 800 600
          = some (min 120000 (max 6000 ((⌊(1 / 200 : ℚ) * (800 * 600)⌋ : ℤ) : ℚ)))
        ∧ (∀ q : ℚ, computeTarget 6000 120000 (some (1 / 200)) 800 600 = some q →
            6000 ≤ q ∧ q ≤ 120000)
        ∧ ((6000 : ℚ) ≤ ((⌊(1 / 200 : ℚ) * (800 * 600)⌋ : ℤ) : ℚ) →
            ((⌊(1 / 200 : ℚ) * (800 * 600)⌋ : ℤ) : ℚ) ≤ 120000 →
            computeTarget 6000 120000 (some (1 / 200)) 800 600
              = some ((⌊(1 / 200 : ℚ) * (800 * 600)⌋ : ℤ) : ℚ))
        ∧ (∀ (layout : ℚ → ℚ → ℚ × ℚ) (rng : ℕ → ℚ) (st : TField),
            st.baseDensity = some (1 / 200) → st.W = 800 → st.H = 600 →
            (rebuildPointField layout rng st).1.N
              = some (min 120000 (max 6000 ((⌊(1 / 200 : ℚ) * (800 * 600)⌋ : ℤ) : ℚ))))) :=
  ⟨by norm_num, pointCount_clamp 6000 120000 (1 / 200) 800 600 (by norm_num)⟩

theorem loopStep_speed (now : ℚ) (st : TField) : (loopStep now st).speed = st.speed := by
  rw [loopStep]; split <;> rfl

theorem loopStep_running (now : ℚ) (st : TField) :
    (loopStep now st).running = st.running := by
  rw [loopStep]; split <;> rfl

theorem loopStep_not_running (now : ℚ) (st : TField) (h : st.running = false) :
    loopStep now st = st := by
  simp [loopStep, h]

theorem loopStep_t (now : ℚ) (st : TField) (h : st.running = true) :
    (loopStep now st).t
      = st.t + max (1 / 10000) ((now - st.last) / 1000) * st.speed * 60 := by
  simp [loopStep, h]

theorem loopStep_t_clamped (st : TField) (g : ℚ) (h : st.running = true)
    (hsmall : g / 1000 ≤ 1 / 10000) :
    (loopStep (st.last + g) st).t = st.t + (1 / 10000) * st.speed * 60 := by
  rw [loopStep_t _ _ h]
  have hg' : st.last + g - st.last = g := by ring
  rw [hg', max_eq_left hsmall]

/-- C2 counterexample: the loop clamps the elapsed delta below by 0.0001
seconds, so splitting a total elapsed time of 0.1 milliseconds into two
positive frames of 0.05 milliseconds advances logical time twice as far
as one frame covering the same total: partition additivity fails for
positive steps below the clamp. -/
theorem timeAdvance_subEpsilon_cex :
    ([(1 : ℚ) / 20, 1 / 20].sum = [(1 : ℚ) / 10].sum)
    ∧ (runGaps [(1 : ℚ) / 10] st0).t = 3 / 1000
    ∧ (runGaps [(1 : ℚ) / 20, 1 / 20] st0).t = 6 / 1000
    ∧ (runGaps [(1 : ℚ) / 20, 1 / 20] st0).t ≠ (runGaps [(1 : ℚ) / 10] st0).t := by
  have e1 : (runGaps [(1 : ℚ) / 10] st0).t = 3 / 1000 := by
    show (loopStep (st0.last + 1 / 10) st0).t = 3 / 1000
    rw [loopStep_t_clamped st0 (1 / 10) rfl (by norm_num)]
    norm_num [st0]
  have hst1run : (loopStep (st0.last + 1 / 20) st0).running = true := by
    rw [loopStep_running]; rfl
  have e2 : (runGaps [(1 : ℚ) / 20, 1 / 20] st0).t = 6 / 1000 := by
    have h1 : (loopStep (st0.last + 1 / 20) st0).t = 3 / 1000 := by
      rw [loopStep_t_clamped st0 (1 / 20) rfl (by norm_num)]
      norm_num [st0]
    have h2 := loopStep_t_clamped (loopStep (st0.last + 1 / 20) st0) (1 / 20)
      hst1run (by norm_num)
    show (loopStep ((loopStep (st0.last + (1 : ℚ) / 20) st0).last + 1 / 20)
        (loopStep (st0.last + (1 : ℚ) / 20) st0)).t = 6 / 1000
    rw [h2, h1, loopStep_speed]
    norm_num [st0]
  refine ⟨by norm_num, e1, e2, ?_⟩
  rw [e1, e2]
  norm_num

/-- C2 amended: the logical-time update of the loop in templateField.js is
additive over any partition of the elapsed wall-clock time into frames of
at least 0.0001 seconds (0.1 milliseconds, the clamp floor): the total
advance is the partition sum times speed times 60, so sixteen frames of
1/240 second advance logical time exactly as far as one frame of 1/15
second at the same fixed speed. -/
theorem timeAdvance_partition_additive (gaps : List ℚ) (st : TField)
    (hrun : st.running = true) (hg : ∀ g ∈ gaps, (1 / 10 : ℚ) ≤ g) :
    (runGaps gaps st).t = st.t + (gaps.sum / 1000) * st.speed * 60 := by
  induction gaps generalizing st with
  | nil => simp [runGaps]
  | cons g gs ih =>
      have hgg : (1 / 10 : ℚ) ≤ g := hg g (List.mem_cons_self g gs)
      have hrun1 : (loopStep (st.last + g) st).running = true := by
        rw [loopStep_running]; exact hrun
      have hrg : runGaps (g :: gs) st = runGaps gs (loopStep (st.last + g) st) := rfl
      rw [hrg, ih _ hrun1 (fun x hx => hg x (List.mem_cons_of_mem _ hx)),
        loopStep_t _ _ hrun, loopStep_speed]
      have hmax : max (1 / 10000 : ℚ) ((st.last + g - st.last) / 1000) = g / 1000 := by
        have hg' : st.last + g - st.last = g := by ring
        rw [hg', max_eq_right (by linarith)]
      rw [hmax, List.sum_cons]
      ring

/-- Witness for C2 amended: sixteen frames of 1/240 second and one frame
of 1/15 second advance logical time identically from the concrete state. -/
theorem timeAdvance_partition_additive_witness :
    st0.running = true
    ∧ (∀ g ∈ List.replicate 16 ((1000 : ℚ) / 240), (1 / 10 : ℚ) ≤ g)
    ∧ (runGaps (List.replicate 16 ((1000 : ℚ) / 240)) st0).t
        = st0.t + ((List.replicate 16 ((1000 : ℚ) / 240)).sum / 1000) * st0.speed * 60
    ∧ (runGaps [(1000 : ℚ) / 15] st0).t
        = st0.t + (([(1000 : ℚ) / 15]).sum / 1000) * st0.speed * 60
    ∧ (runGaps (List.replicate 16 ((1000 : ℚ) / 240)) st0).t
        = (runGaps [(1000 : ℚ) / 15] st0).t := by
  have hmem : ∀ g ∈ List.replicate 16 ((1000 : ℚ) / 240), (1 / 10 : ℚ) ≤ g := by
    intro g hgm
    rw [List.eq_of_mem_replicate hgm]
    norm_num
  have h1 := timeAdvance_partition_additive (List.replicate 16 ((1000 : ℚ) / 240)) st0
    rfl hmem
  have h2 := timeAdvance_partition_additive [(1000 : ℚ) / 15] st0 rfl
    (by intro g hgm; rw [List.mem_singleton.mp hgm]; norm_num)
  refine ⟨rfl, hmem, h1, h2, ?_⟩
  rw [h1, h2]
  simp only [List.sum_replicate, nsmul_eq_mul, List.sum_cons, List.sum_nil]
  norm_num [st0]

/-- C3: while running is false a frame leaves the whole state, in
particular logical time and the zoom phase, untouched; play resets the
last-timestamp reference to the resume time; and the first frame after a
pause then resume advances logical time only by the wall clock elapsed
since the resume, independent of how long the engine was paused. -/
theorem pause_resume_exact (st1 st2 : TField) (now now2 now3 : ℚ)
    (h1 : st1.running = false) (h2 : st2.running = true) :
    loopStep now st1 = st1
    ∧ (play now2 (pause st2)).last = now2
    ∧ (loopStep now3 (play now2 (pause st2))).t
        = st2.t + max (1 / 10000) ((now3 - now2) / 1000) * st2.speed * 60 := by
  refine ⟨loopStep_not_running _ _ h1, ?_, ?_⟩
  · simp [play, pause]
  · have hpr : play now2 (pause st2) = { st2 with running := true, last := now2 } := by
      simp [play, pause]
    rw [hpr, loopStep_t _ _ rfl]

/-- Witness for C3 on the concrete state: a frame on the paused state is
the identity, and resuming at time 1000 then rendering at 1016 advances
logical time by 0.016 times speed times 60 only. -/
theorem pause_resume_exact_witness :
    (pause st0).running = false ∧ st0.running = true
    ∧ (loopStep 5 (pause st0) = pause st0
      ∧ (play 1000 (pause st0)).last = 1000
      ∧ (loopStep 1016 (play 1000 (pause st0))).t
          = st0.t + max (1 / 10000) ((1016 - 1000) / 1000) * st0.speed * 60) :=
  ⟨rfl, rfl, pause_resume_exact (pause st0) st0 5 1000 1016 rfl rfl⟩

theorem rebuildPointField_eq (layout : ℚ → ℚ → ℚ × ℚ) (rng : ℕ → ℚ) (st : TField) :
    rebuildPointField layout rng st =
      if jsEq (computeTarget 6000 120000 st.baseDensity st.W st.H) st.N
          && jsEqNat st.pts.length (computeTarget 6000 120000 st.baseDensity st.W st.H) then
        (st, [StatsEvent.points st.N])
      else
        ({ st with
            N := computeTarget 6000 120000 st.baseDensity st.W st.H
            pts := buildPts layout rng st.rngIdx
              (jsToLength (computeTarget 6000 120000 st.baseDensity st.W st.H))
            rngIdx := st.rngIdx
              + 2 * jsToLength (computeTarget 6000 120000 st.baseDensity st.W st.H) },
         [StatsEvent.points (computeTarget 6000 120000 st.baseDensity st.W st.H)]) := rfl

theorem orbitRebuild_eq (st : OField) :
    orbitRebuildPointField st =
      if jsEq (computeTarget 6000 120000 st.baseDensity st.W st.H) st.N then
        (st, [])
      else
        ({ st with
            N := computeTarget 6000 120000 st.baseDensity st.W st.H
            pts := orbitBuildArrays
              (jsToLength (computeTarget 6000 120000 st.baseDensity st.W st.H)) },
         [StatsEvent.points (computeTarget 6000 120000 st.baseDensity st.W st.H)]) := rfl

theorem computeTarget_cases (dens : JsNum) (W H : ℚ) :
    computeTarget 6000 120000 dens W H = none
    ∨ ∃ z : ℤ, 6000 ≤ z ∧ computeTarget 6000 120000 dens W H = some ((z : ℤ) : ℚ) := by
  cases dens with
  | none => exact Or.inl rfl
  | some d =>
      refine Or.inr ⟨min 120000 (max 6000 ⌊d * (W * H)⌋), ?_, ?_⟩
      · exact le_min (by norm_num) (le_max_left _ _)
      · rw [computeTarget_some]
        congr 1
        push_cast
        rfl

theorem buildPts_length (layout : ℚ → ℚ → ℚ × ℚ) (rng : ℕ → ℚ) (start n : ℕ) :
    (buildPts layout rng start n).length = n := by
  simp [buildPts]

theorem jsEqNat_toLength (z : ℤ) (hz : 0 ≤ z) :
    jsEqNat (jsToLength (some ((z : ℤ) : ℚ))) (some ((z : ℤ) : ℚ)) = true := by
  simp only [jsToLength, jsEqNat, Int.floor_intCast, beq_iff_eq]
  exact_mod_cast (Int.toNat_of_nonneg hz).symm

theorem jsEqNat_true {n : ℕ} {v : JsNum} (h : jsEqNat n v = true) : v = some ((n : ℕ) : ℚ) := by
  cases v with
  | none => simp [jsEqNat] at h
  | some q =>
      simp only [jsEqNat, beq_iff_eq] at h
      rw [h]

theorem rebuild_env (layout : ℚ → ℚ → ℚ × ℚ) (rng : ℕ → ℚ) (st : TField) :
    (rebuildPointField layout rng st).1.baseDensity = st.baseDensity
    ∧ (rebuildPointField layout rng st).1.W = st.W
    ∧ (rebuildPointField layout rng st).1.H = st.H
    ∧ (rebuildPointField layout rng st).1.t = st.t := by
  rw [rebuildPointField_eq]
  split <;> exact ⟨rfl, rfl, rfl, rfl⟩

theorem rebuild_len (layout : ℚ → ℚ → ℚ × ℚ) (rng : ℕ → ℚ) (st : TField) :
    (rebuildPointField layout rng st).1.pts.length
      = jsToLength (rebuildPointField layout rng st).1.N := by
  rw [rebuildPointField_eq]
  split
  next h =>
    have hEq := jsEq_eq_true ((Bool.and_eq_true _ _).mp h).1
    have hLen := jsEqNat_true ((Bool.and_eq_true _ _).mp h).2
    show st.pts.length = jsToLength st.N
    rw [← hEq, hLen]
    simp [jsToLength]
  next _ =>
    show (buildPts _ _ _ _).length = jsToLength _
    rw [buildPts_length]

theorem rebuild_fixpoint (layout : ℚ → ℚ → ℚ × ℚ) (rng : ℕ → ℚ) (st1 : TField)
    (hN : st1.N = computeTarget 6000 120000 st1.baseDensity st1.W st1.H)
    (hlen : st1.pts.length = jsToLength st1.N) :
    rebuildPointField layout rng st1 = (st1, [StatsEvent.points st1.N]) := by
  rcases computeTarget_cases st1.baseDensity st1.W st1.H with hnone | ⟨z, hz, hzT⟩
  · have hN' : st1.N = none := by rw [hN, hnone]
    have hpts : st1.pts = [] := by
      rw [← List.length_eq_zero, hlen, hN']
      rfl
    have hcond : (jsEq (computeTarget 6000 120000 st1.baseDensity st1.W st1.H) st1.N
        && jsEqNat st1.pts.length
          (computeTarget 6000 120000 st1.baseDensity st1.W st1.H)) = false := by
      rw [hnone, hN']
      rfl
    rw [rebuildPointField_eq, if_neg (by simp [hcond])]
    refine Prod.ext ?_ ?_
    · show ({ st1 with
          N := computeTarget 6000 120000 st1.baseDensity st1.W st1.H
          pts := _, rngIdx := _ } : TField) = st1
      have hb : buildPts layout rng st1.rngIdx
          (jsToLength (computeTarget 6000 120000 st1.baseDensity st1.W st1.H)) = [] := by
        rw [hnone]
        rfl
      apply TField.ext <;> simp [hnone, hN', hpts, jsToLength, buildPts]
    · show [StatsEvent.points (computeTarget 6000 120000 st1.baseDensity st1.W st1.H)]
        = [StatsEvent.points st1.N]
      rw [hnone, hN']
  · have hN' : st1.N = some ((z : ℤ) : ℚ) := by rw [hN, hzT]
    have hcond : (jsEq (computeTarget 6000 120000 st1.baseDensity st1.W st1.H) st1.N
        && jsEqNat st1.pts.length
          (computeTarget 6000 120000 st1.baseDensity st1.W st1.H)) = true := by
      rw [hzT, hN', Bool.and_eq_true]
      constructor
      · simp [jsEq]
      · rw [hlen, hN']
        exact jsEqNat_toLength z (le_trans (by norm_num) hz)
    rw [rebuildPointField_eq, if_pos hcond]

theorem orbitRebuild_N (st : OField) :
    (orbitRebuildPointField st).1.N
      = computeTarget 6000 120000 st.baseDensity st.W st.H := by
  rw [orbitRebuild_eq]
  split
  next h => exact (jsEq_eq_true h).symm
  next _ => rfl

theorem orbitRebuild_env (st : OField) :
    (orbitRebuildPointField st).1.baseDensity = st.baseDensity
    ∧ (orbitRebuildPointField st).1.W = st.W
    ∧ (orbitRebuildPointField st).1.H = st.H := by
  rw [orbitRebuild_eq]
  split <;> exact ⟨rfl, rfl, rfl⟩

/-- C4 counterexample: on a concrete orbitField state whose clamped target
strictly equals its current count, the rebuild takes the no-op early
return of orbitField.js line 48 and emits no stats event at all, so the
no-op check does not report the current particle count. -/
theorem orbit_noop_silent_cex :
    jsEq (computeTarget 6000 120000 ost0.baseDensity ost0.W ost0.H) ost0.N = true
    ∧ (orbitRebuildPointField ost0).2 = [] := by
  have htarget : computeTarget 6000 120000 ost0.baseDensity ost0.W ost0.H
      = some 6000 := by
    show computeTarget 6000 120000 (some (1 / 200)) 800 600 = some 6000
    rw [computeTarget_some]
    norm_num
  have hcond : jsEq (computeTarget 6000 120000 ost0.baseDensity ost0.W ost0.H)
      ost0.N = true := by
    rw [htarget]
    show jsEq (some 6000) (some 6000) = true
    simp [jsEq]
  refine ⟨hcond, ?_⟩
  rw [orbitRebuild_eq, if_pos hcond]

/-- C4 amended: for templateField.js a second rebuild with unchanged
density, width and height is a no-op that leaves the state, so in
particular the particle arrays and the random cursor, identical, while
still reporting the current count through the stats callback; for
orbitField.js the second rebuild is equally a state no-op, but its no-op
check returns without any stats report. -/
theorem rebuild_second_noop (layout : ℚ → ℚ → ℚ × ℚ) (rng : ℕ → ℚ)
    (st : TField) (ost : OField) (d : ℚ) (hd : ost.baseDensity = some d) :
    rebuildPointField layout rng (rebuildPointField layout rng st).1
      = ((rebuildPointField layout rng st).1,
         [StatsEvent.points (rebuildPointField layout rng st).1.N])
    ∧ orbitRebuildPointField (orbitRebuildPointField ost).1
      = ((orbitRebuildPointField ost).1, []) := by
  constructor
  · apply rebuild_fixpoint
    · rw [(rebuild_env layout rng st).1, (rebuild_env layout rng st).2.1,
        (rebuild_env layout rng st).2.2.1]
      exact rebuild_N layout rng st
    · exact rebuild_len layout rng st
  · rcases computeTarget_cases ost.baseDensity ost.W ost.H with hnone | ⟨z, _, hzT⟩
    · rw [hd] at hnone
      simp [computeTarget_some] at hnone
    · have hT1 : computeTarget 6000 120000 (orbitRebuildPointField ost).1.baseDensity
          (orbitRebuildPointField ost).1.W (orbitRebuildPointField ost).1.H
          = some ((z : ℤ) : ℚ) := by
        rw [(orbitRebuild_env ost).1, (orbitRebuild_env ost).2.1,
          (orbitRebuild_env ost).2.2, hzT]
      have hN1 : (orbitRebuildPointField ost).1.N = some ((z : ℤ) : ℚ) := by
        rw [orbitRebuild_N, hzT]
      have hcond : jsEq (computeTarget 6000 120000
          (orbitRebuildPointField ost).1.baseDensity
          (orbitRebuildPointField ost).1.W (orbitRebuildPointField ost).1.H)
          (orbitRebuildPointField ost).1.N = true := by
        rw [hT1, hN1]
        simp [jsEq]
      rw [orbitRebuild_eq, if_pos hcond]

/-- Witness for C4 amended at a concrete orbit state with numeric
density. -/
theorem rebuild_second_noop_witness :
    ost0.baseDensity = some (1 / 200)
    ∧ (rebuildPointField (fun u v => (u, v)) (fun _ => 1 / 2)
          (rebuildPointField (fun u v => (u, v)) (fun _ => 1 / 2) st0).1
        = ((rebuildPointField (fun u v => (u, v)) (fun _ => 1 / 2) st0).1,
           [StatsEvent.points
             (rebuildPointField (fun u v => (u, v)) (fun _ => 1 / 2) st0).1.N])
      ∧ orbitRebuildPointField (orbitRebuildPointField ost0).1
        = ((orbitRebuildPointField ost0).1, [])) :=
  ⟨rfl, rebuild_second_noop (fun u v => (u, v)) (fun _ => 1 / 2) st0 ost0 (1 / 200) rfl⟩

theorem stepFire_one (gw gh : ℕ) (seeds : List (ℕ × ℚ)) (b : ℕ → ℚ) :
    stepFire gw gh [seeds] b = fireSimStep gw gh seeds b := rfl

theorem fireSimStep_def (gw gh : ℕ) (seeds : List (ℕ × ℚ)) (b : ℕ → ℚ) :
    fireSimStep gw gh seeds b
      = decay (gw * gh) (diffuse gw (gw * gh) (seedCells gw gh seeds b)) := rfl

theorem decay_def (gs : ℕ) (b : ℕ → ℚ) : decay gs b = decayAux gs b 0 := rfl

theorem diffuse_def (gw gs : ℕ) (b : ℕ → ℚ) : diffuse gw gs b = diffuseAux gw gs b 0 := rfl

theorem seedCells_nil (gw gh : ℕ) (b : ℕ → ℚ) : seedCells gw gh [] b = b := rfl

theorem diffuseAux_lt (gw : ℕ) :
    ∀ (n : ℕ) (b : ℕ → ℚ) (i j : ℕ), j < i → diffuseAux gw n b i j = b j := by
  intro n
  induction n with
  | zero => intro b i j _; rfl
  | succ n ih =>
      intro b i j hj
      show diffuseAux gw n
        (Function.update b i ((b i + b (i + 1) + b (i + gw) + b (i + gw + 1)) * (1 / 4)))
        (i + 1) j = b j
      rw [ih _ _ _ (Nat.lt_succ_of_lt hj)]
      exact Function.update_noteq (Nat.ne_of_lt hj) _ b

theorem diffuseAux_ge (gw : ℕ) :
    ∀ (n : ℕ) (b : ℕ → ℚ) (i j : ℕ), i + n ≤ j → diffuseAux gw n b i j = b j := by
  intro n
  induction n with
  | zero => intro b i j _; rfl
  | succ n ih =>
      intro b i j hj
      show diffuseAux gw n
        (Function.update b i ((b i + b (i + 1) + b (i + gw) + b (i + gw + 1)) * (1 / 4)))
        (i + 1) j = b j
      rw [ih _ _ _ (by omega)]
      exact Function.update_noteq (by omega) _ b

theorem diffuseAux_mid (gw : ℕ) (hgw : 1 ≤ gw) :
    ∀ (n : ℕ) (b : ℕ → ℚ) (i j : ℕ), i ≤ j → j < i + n →
      diffuseAux gw n b i j
        = (b j + b (j + 1) + b (j + gw) + b (j + gw + 1)) * (1 / 4) := by
  intro n
  induction n with
  | zero => intro b i j hij hjn; omega
  | succ n ih =>
      intro b i j hij hjn
      show diffuseAux gw n
        (Function.update b i ((b i + b (i + 1) + b (i + gw) + b (i + gw + 1)) * (1 / 4)))
        (i + 1) j = _
      rcases Nat.eq_or_lt_of_le hij with heq | hlt
      · subst heq
        rw [diffuseAux_lt gw n _ _ _ (Nat.lt_succ_self i)]
        exact Function.update_same _ _ _
      · rw [ih _ _ _ hlt (by omega)]
        rw [Function.update_noteq (by omega) _ b,
          Function.update_noteq (by omega) _ b,
          Function.update_noteq (by omega) _ b,
          Function.update_noteq (by omega) _ b]

theorem decayAux_ge :
    ∀ (n : ℕ) (b : ℕ → ℚ) (i j : ℕ), i + n ≤ j → decayAux n b i j = b j := by
  intro n
  induction n with
  | zero => intro b i j _; rfl
  | succ n ih =>
      intro b i j hj
      show decayAux n (Function.update b i (b i * (197 / 200))) (i + 1) j = b j
      rw [ih _ _ _ (by omega)]
      exact Function.update_noteq (by omega) _ b

theorem decayAux_lt :
    ∀ (n : ℕ) (b : ℕ → ℚ) (i j : ℕ), j < i → decayAux n b i j = b j := by
  intro n
  induction n with
  | zero => intro b i j _; rfl
  | succ n ih =>
      intro b i j hj
      show decayAux n (Function.update b i (b i * (197 / 200))) (i + 1) j = b j
      rw [ih _ _ _ (Nat.lt_succ_of_lt hj)]
      exact Function.update_noteq (Nat.ne_of_lt hj) _ b

theorem decayAux_mid :
    ∀ (n : ℕ) (b : ℕ → ℚ) (i j : ℕ), i ≤ j → j < i + n →
      decayAux n b i j = b j * (197 / 200) := by
  intro n
  induction n with
  | zero => intro b i j hij hjn; omega
  | succ n ih =>
      intro b i j hij hjn
      show decayAux n (Function.update b i (b i * (197 / 200))) (i + 1) j = _
      rcases Nat.eq_or_lt_of_le hij with heq | hlt
      · subst heq
        rw [decayAux_lt n _ _ _ (Nat.lt_succ_self i)]
        exact Function.update_same _ _ _
      · rw [ih _ _ _ hlt (by omega)]
        rw [Function.update_noteq (by omega) _ b]

theorem fireSimStep_nil_bounds (gw gh : ℕ) (b : ℕ → ℚ) (M : ℚ)
    (hgw : 1 ≤ gw) (hM : 0 ≤ M)
    (h0 : ∀ j, 0 ≤ b j) (hub : ∀ j, b j ≤ M)
    (hpad : ∀ j, gw * gh ≤ j → b j = 0) :
    (∀ j, 0 ≤ fireSimStep gw gh [] b j)
    ∧ (∀ j, fireSimStep gw gh [] b j ≤ 197 / 200 * M)
    ∧ (∀ j, gw * gh ≤ j → fireSimStep gw gh [] b j = 0) := by
  have hval : ∀ j, j < gw * gh →
      fireSimStep gw gh [] b j
        = (b j + b (j + 1) + b (j + gw) + b (j + gw + 1)) * (1 / 4) * (197 / 200) := by
    intro j hj
    show decay (gw * gh) (diffuse gw (gw * gh) (seedCells gw gh [] b)) j = _
    have hseed : seedCells gw gh [] b = b := rfl
    rw [hseed]
    show decayAux (gw * gh) (diffuse gw (gw * gh) b) 0 j = _
    rw [decayAux_mid (gw * gh) _ 0 j (Nat.zero_le j) (by omega)]
    show diffuseAux gw (gw * gh) b 0 j * (197 / 200) = _
    rw [diffuseAux_mid gw hgw (gw * gh) b 0 j (Nat.zero_le j) (by omega)]
  have hpadval : ∀ j, gw * gh ≤ j → fireSimStep gw gh [] b j = 0 := by
    intro j hj
    show decay (gw * gh) (diffuse gw (gw * gh) (seedCells gw gh [] b)) j = 0
    have hseed : seedCells gw gh [] b = b := rfl
    rw [hseed]
    show decayAux (gw * gh) (diffuse gw (gw * gh) b) 0 j = 0
    rw [decayAux_ge (gw * gh) _ 0 j (by omega)]
    show diffuseAux gw (gw * gh) b 0 j = 0
    rw [diffuseAux_ge gw (gw * gh) b 0 j (by omega)]
    exact hpad j hj
  refine ⟨?_, ?_, hpadval⟩
  · intro j
    by_cases hj : j < gw * gh
    · rw [hval j hj]
      have := h0 j
      have := h0 (j + 1)
      have := h0 (j + gw)
      have := h0 (j + gw + 1)
      linarith
    · rw [hpadval j (by omega)]
  · intro j
    by_cases hj : j < gw * gh
    · rw [hval j hj]
      have := hub j
      have := hub (j + 1)
      have := hub (j + gw)
      have := hub (j + gw + 1)
      linarith
    · rw [hpadval j (by omega)]
      linarith

/-- C5 counterexample: on the minimum-size 24 by 18 CellularFire grid with
zero seeding, the cell at index 0, initially 0, rises to 9.85 after one
simulation step because diffusion averages in its hot right neighbour:
individual cell intensities do not monotonically decrease. -/
theorem fire_cell_can_increase_cex :
    fireCexBuf 0 = 0
    ∧ stepFire 24 18 [[]] fireCexBuf 0 = 197 / 20
    ∧ fireCexBuf 0 < stepFire 24 18 [[]] fireCexBuf 0 := by
  have hv : stepFire 24 18 [[]] fireCexBuf 0
      = (fireCexBuf 0 + fireCexBuf 1 + fireCexBuf 24 + fireCexBuf 25)
          * (1 / 4) * (197 / 200) := by
    rw [stepFire_one, fireSimStep_def, seedCells_nil, decay_def,
      decayAux_mid (24 * 18) _ 0 0 (le_refl 0) (by norm_num), diffuse_def,
      diffuseAux_mid 24 (by norm_num) (24 * 18) fireCexBuf 0 0 (le_refl 0) (by norm_num)]
  have hb0 : fireCexBuf 0 = 0 := rfl
  have hb1 : fireCexBuf 1 = 40 := rfl
  have hb24 : fireCexBuf 24 = 0 := rfl
  have hb25 : fireCexBuf 25 = 0 := rfl
  refine ⟨hb0, ?_, ?_⟩
  · rw [hv, hb0, hb1, hb24, hb25]
    norm_num
  · rw [hv, hb0, hb1, hb24, hb25]
    norm_num

/-- C5 amended: with zero seeding, every CellularFire simulation step keeps
every cell nonnegative, keeps every cell at or below the initial bound
scaled by 0.985 per step (so within the initial range, in particular
within 0 to 70 for an initial bound of 70, decaying geometrically toward
0 in that bound), and leaves the zero padding zero; individual cells need
not decrease monotonically, as the counterexample shows. -/
theorem stepFire_no_seed_bounds (gw gh : ℕ) (hgw : 1 ≤ gw) :
    ∀ (n : ℕ) (b : ℕ → ℚ) (M : ℚ), 0 ≤ M →
    (∀ j, 0 ≤ b j) → (∀ j, b j ≤ M) → (∀ j, gw * gh ≤ j → b j = 0) →
    (∀ j, 0 ≤ stepFire gw gh (List.replicate n []) b j)
    ∧ (∀ j, stepFire gw gh (List.replicate n []) b j ≤ (197 / 200) ^ n * M)
    ∧ ((197 / 200 : ℚ) ^ n * M ≤ M)
    ∧ (∀ j, gw * gh ≤ j → stepFire gw gh (List.replicate n []) b j = 0) := by
  intro n
  induction n with
  | zero =>
      intro b M hM h0 hub hpad
      refine ⟨h0, ?_, by simpa using le_refl M, hpad⟩
      simpa using hub
  | succ n ih =>
      intro b M hM h0 hub hpad
      have hstep := fireSimStep_nil_bounds gw gh b M hgw hM h0 hub hpad
      have hM' : (0 : ℚ) ≤ 197 / 200 * M := by linarith
      have hrec := ih (fireSimStep gw gh [] b) (197 / 200 * M) hM'
        hstep.1 hstep.2.1 hstep.2.2
      have hfold : stepFire gw gh (List.replicate (n + 1) []) b
          = stepFire gw gh (List.replicate n []) (fireSimStep gw gh [] b) := rfl
      rw [hfold]
      have hpow : (197 / 200 : ℚ) ^ n * (197 / 200 * M) = (197 / 200) ^ (n + 1) * M := by
        ring
      refine ⟨hrec.1, ?_, ?_, hrec.2.2.2⟩
      · intro j
        calc stepFire gw gh (List.replicate n []) (fireSimStep gw gh [] b) j
            ≤ (197 / 200) ^ n * (197 / 200 * M) := hrec.2.1 j
          _ = (197 / 200) ^ (n + 1) * M := hpow
      · calc (197 / 200 : ℚ) ^ (n + 1) * M = (197 / 200) ^ n * (197 / 200 * M) :=
            hpow.symm
          _ ≤ 197 / 200 * M := hrec.2.2.1
          _ ≤ M := by linarith

/-- Witness for C5 amended: two no-seed steps on the all-zero minimum-size
grid with initial bound 70. -/
theorem stepFire_no_seed_bounds_witness :
    1 ≤ 24 ∧ (0 : ℚ) ≤ 70
    ∧ ((∀ j, 0 ≤ stepFire 24 18 (List.replicate 2 []) (fun _ => (0 : ℚ)) j)
      ∧ (∀ j, stepFire 24 18 (List.replicate 2 []) (fun _ => (0 : ℚ)) j
          ≤ (197 / 200) ^ 2 * 70)
      ∧ ((197 / 200 : ℚ) ^ 2 * 70 ≤ 70)
      ∧ (∀ j, 24 * 18 ≤ j →
          stepFire 24 18 (List.replicate 2 []) (fun _ => (0 : ℚ)) j = 0)) :=
  ⟨by norm_num, by norm_num,
   stepFire_no_seed_bounds 24 18 (by norm_num) 2 (fun _ => 0) 70 (by norm_num)
     (fun _ => le_refl 0) (fun _ => by norm_num) (fun _ _ => rfl)⟩

theorem foldlMin_le_init (f : ℚ × ℚ → ℚ) :
    ∀ (l : List (ℚ × ℚ)) (a : ℚ), l.foldl (fun m q => min m (f q)) a ≤ a := by
  intro l
  induction l with
  | nil => intro a; exact le_refl a
  | cons p ps ih =>
      intro a
      calc ps.foldl (fun m q => min m (f q)) (min a (f p)) ≤ min a (f p) := ih _
        _ ≤ a := min_le_left _ _

theorem foldlMin_le_mem (f : ℚ × ℚ → ℚ) :
    ∀ (l : List (ℚ × ℚ)) (a : ℚ) (p : ℚ × ℚ), p ∈ l →
      l.foldl (fun m q => min m (f q)) a ≤ f p := by
  intro l
  induction l with
  | nil => intro a p hp; cases hp
  | cons q qs ih =>
      intro a p hp
      rcases List.mem_cons.mp hp with heq | hmem
      · subst heq
        calc qs.foldl (fun m q => min m (f q)) (min a (f p)) ≤ min a (f p) :=
            foldlMin_le_init f qs _
          _ ≤ f p := min_le_right _ _
      · exact ih _ p hmem

theorem init_le_foldlMax (f : ℚ × ℚ → ℚ) :
    ∀ (l : List (ℚ × ℚ)) (a : ℚ), a ≤ l.foldl (fun m q => max m (f q)) a := by
  intro l
  induction l with
  | nil => intro a; exact le_refl a
  | cons p ps ih =>
      intro a
      calc a ≤ max a (f p) := le_max_left _ _
        _ ≤ ps.foldl (fun m q => max m (f q)) (max a (f p)) := ih _

theorem mem_le_foldlMax (f : ℚ × ℚ → ℚ) :
    ∀ (l : List (ℚ × ℚ)) (a : ℚ) (p : ℚ × ℚ), p ∈ l →
      f p ≤ l.foldl (fun m q => max m (f q)) a := by
  intro l
  induction l with
  | nil => intro a p hp; cases hp
  | cons q qs ih =>
      intro a p hp
      rcases List.mem_cons.mp hp with heq | hmem
      · subst heq
        calc f p ≤ max a (f p) := le_max_right _ _
          _ ≤ qs.foldl (fun m q => max m (f q)) (max a (f p)) := init_le_foldlMax f qs _
      · exact ih _ p hmem

theorem minOver_le (f : ℚ × ℚ → ℚ) {p : ℚ × ℚ} {pts : List (ℚ × ℚ)} (hp : p ∈ pts) :
    minOver f pts ≤ f p := by
  cases pts with
  | nil => cases hp
  | cons q qs =>
      rcases List.mem_cons.mp hp with heq | hmem
      · subst heq
        exact foldlMin_le_init f qs _
      · exact foldlMin_le_mem f qs _ p hmem

theorem le_maxOver (f : ℚ × ℚ → ℚ) {p : ℚ × ℚ} {pts : List (ℚ × ℚ)} (hp : p ∈ pts) :
    f p ≤ maxOver f pts := by
  cases pts with
  | nil => cases hp
  | cons q qs =>
      rcases List.mem_cons.mp hp with heq | hmem
      · subst heq
        exact init_le_foldlMax f qs _
      · exact mem_le_foldlMax f qs _ p hmem

theorem minOver_le_maxOver (f : ℚ × ℚ → ℚ) {pts : List (ℚ × ℚ)} (hne : pts ≠ []) :
    minOver f pts ≤ maxOver f pts := by
  cases pts with
  | nil => exact absurd rfl hne
  | cons q qs =>
      have hq : q ∈ q :: qs := List.mem_cons_self q qs
      exact le_trans (minOver_le f hq) (le_maxOver f hq)

theorem bboxSpan_pos {lo hi : ℚ} (h : lo ≤ hi) : 0 < bboxSpan lo hi := by
  unfold bboxSpan
  split
  next => norm_num
  next hne =>
    rcases lt_or_eq_of_le (sub_nonneg.mpr h) with hlt | heq
    · exact hlt
    · exact absurd heq.symm hne

theorem bboxSpan_ge {lo hi : ℚ} : hi - lo ≤ bboxSpan lo hi := by
  unfold bboxSpan
  split
  next heq => rw [heq]; norm_num
  next _ => exact le_refl _

theorem fit_coord (lo hi q L z s : ℚ)
    (hlo : lo ≤ q) (hhi : q ≤ hi) (hs : 0 ≤ s)
    (hkey : s * bboxSpan lo hi ≤ L * (23 / 25) * z)
    (hL : 0 < L) (hz1 : z ≤ 1) :
    0 ≤ q * s + (L * (1 / 2) - (lo + hi) * (1 / 2) * s)
    ∧ q * s + (L * (1 / 2) - (lo + hi) * (1 / 2) * s) ≤ L := by
  have hspan : hi - lo ≤ bboxSpan lo hi := bboxSpan_ge
  have hqmid_le : q - (lo + hi) * (1 / 2) ≤ bboxSpan lo hi * (1 / 2) := by linarith
  have hqmid_ge : -(bboxSpan lo hi * (1 / 2)) ≤ q - (lo + hi) * (1 / 2) := by linarith
  have hA : (q - (lo + hi) * (1 / 2)) * s ≤ bboxSpan lo hi * (1 / 2) * s :=
    mul_le_mul_of_nonneg_right hqmid_le hs
  have hB : -(bboxSpan lo hi * (1 / 2)) * s ≤ (q - (lo + hi) * (1 / 2)) * s :=
    mul_le_mul_of_nonneg_right hqmid_ge hs
  have hC : bboxSpan lo hi * (1 / 2) * s ≤ L * (23 / 50) * z := by nlinarith [hkey]
  have hD : L * (23 / 50) * z ≤ L * (23 / 50) := by
    nlinarith [mul_nonneg hL.le (sub_nonneg.mpr hz1)]
  constructor <;> nlinarith [hA, hB, hC, hD, hL]

theorem orbitScale_nonneg (W H z : ℚ) (pts : List (ℚ × ℚ))
    (hW : 0 < W) (hH : 0 < H) (hz : 0 < z) (hne : pts ≠ []) :
    0 ≤ orbitScale W H z pts := by
  have hsx : 0 < bboxSpan (minOver Prod.fst pts) (maxOver Prod.fst pts) :=
    bboxSpan_pos (minOver_le_maxOver Prod.fst hne)
  have hsy : 0 < bboxSpan (minOver Prod.snd pts) (maxOver Prod.snd pts) :=
    bboxSpan_pos (minOver_le_maxOver Prod.snd hne)
  have hA : 0 < W * (23 / 25) / bboxSpan (minOver Prod.fst pts) (maxOver Prod.fst pts) :=
    div_pos (by linarith) hsx
  have hB : 0 < H * (23 / 25) / bboxSpan (minOver Prod.snd pts) (maxOver Prod.snd pts) :=
    div_pos (by linarith) hsy
  unfold orbitScale
  have : 0 < min (W * (23 / 25) / bboxSpan (minOver Prod.fst pts) (maxOver Prod.fst pts))
      (H * (23 / 25) / bboxSpan (minOver Prod.snd pts) (maxOver Prod.snd pts)) :=
    lt_min hA hB
  positivity

theorem orbitScale_keyX (W H z : ℚ) (pts : List (ℚ × ℚ))
    (hz : 0 < z) (hne : pts ≠ []) :
    orbitScale W H z pts * bboxSpan (minOver Prod.fst pts) (maxOver Prod.fst pts)
      ≤ W * (23 / 25) * z := by
  have hsx : 0 < bboxSpan (minOver Prod.fst pts) (maxOver Prod.fst pts) :=
    bboxSpan_pos (minOver_le_maxOver Prod.fst hne)
  have hmin : min (W * (23 / 25) / bboxSpan (minOver Prod.fst pts) (maxOver Prod.fst pts))
        (H * (23 / 25) / bboxSpan (minOver Prod.snd pts) (maxOver Prod.snd pts))
      ≤ W * (23 / 25) / bboxSpan (minOver Prod.fst pts) (maxOver Prod.fst pts) :=
    min_le_left _ _
  have hcancel : W * (23 / 25) / bboxSpan (minOver Prod.fst pts) (maxOver Prod.fst pts)
      * bboxSpan (minOver Prod.fst pts) (maxOver Prod.fst pts) = W * (23 / 25) :=
    div_mul_cancel₀ _ (ne_of_gt hsx)
  unfold orbitScale
  calc min (W * (23 / 25) / bboxSpan (minOver Prod.fst pts) (maxOver Prod.fst pts))
        (H * (23 / 25) / bboxSpan (minOver Prod.snd pts) (maxOver Prod.snd pts)) * z
      * bboxSpan (minOver Prod.fst pts) (maxOver Prod.fst pts)
      ≤ W * (23 / 25) / bboxSpan (minOver Prod.fst pts) (maxOver Prod.fst pts) * z
        * bboxSpan (minOver Prod.fst pts) (maxOver Prod.fst pts) := by
        have := mul_le_mul_of_nonneg_right
          (mul_le_mul_of_nonneg_right hmin hz.le) hsx.le
        exact this
    _ = W * (23 / 25) * z := by
        rw [mul_right_comm, hcancel]

theorem orbitScale_keyY (W H z : ℚ) (pts : List (ℚ × ℚ))
    (hz : 0 < z) (hne : pts ≠ []) :
    orbitScale W H z pts * bboxSpan (minOver Prod.snd pts) (maxOver Prod.snd pts)
      ≤ H * (23 / 25) * z := by
  have hsy : 0 < bboxSpan (minOver Prod.snd pts) (maxOver Prod.snd pts) :=
    bboxSpan_pos (minOver_le_maxOver Prod.snd hne)
  have hmin : min (W * (23 / 25) / bboxSpan (minOver Prod.fst pts) (maxOver Prod.fst pts))
        (H * (23 / 25) / bboxSpan (minOver Prod.snd pts) (maxOver Prod.snd pts))
      ≤ H * (23 / 25) / bboxSpan (minOver Prod.snd pts) (maxOver Prod.snd pts) :=
    min_le_right _ _
  have hcancel : H * (23 / 25) / bboxSpan (minOver Prod.snd pts) (maxOver Prod.snd pts)
      * bboxSpan (minOver Prod.snd pts) (maxOver Prod.snd pts) = H * (23 / 25) :=
    div_mul_cancel₀ _ (ne_of_gt hsy)
  unfold orbitScale
  calc min (W * (23 / 25) / bboxSpan (minOver Prod.fst pts) (maxOver Prod.fst pts))
        (H * (23 / 25) / bboxSpan (minOver Prod.snd pts) (maxOver Prod.snd pts)) * z
      * bboxSpan (minOver Prod.snd pts) (maxOver Prod.snd pts)
      ≤ H * (23 / 25) / bboxSpan (minOver Prod.snd pts) (maxOver Prod.snd pts) * z
        * bboxSpan (minOver Prod.snd pts) (maxOver Prod.snd pts) := by
        have := mul_le_mul_of_nonneg_right
          (mul_le_mul_of_nonneg_right hmin hz.le) hsy.le
        exact this
    _ = H * (23 / 25) * z := by
        rw [mul_right_comm, hcancel]

/-- C6 counterexample: at effective zoom 4 (the host allows zoom up to 4)
the bounding-box fit of orbitField.js maps the frame points (0,0) and
(10,10) on a 100 by 100 viewport to (-134,-134) and (234,234), far
outside the margin-adjusted viewport (margin 0.92 leaves a slack of 4
around the 100-wide viewport): the framing guarantee fails for zoom
settings above 1. -/
theorem orbit_frame_escape_cex :
    orbitFrameMap 100 100 4 [(0, 0), (10, 10)] = [(-134, -134), (234, 234)]
    ∧ ((234 : ℚ) > 100 + 4) ∧ ((-134 : ℚ) < 0 - 4) := by
  refine ⟨?_, by norm_num, by norm_num⟩
  have hmin : minOver Prod.fst [((0 : ℚ), (0 : ℚ)), (10, 10)] = 0 := by
    simp [minOver, min_def]
  have hmax : maxOver Prod.fst [((0 : ℚ), (0 : ℚ)), (10, 10)] = 10 := by
    simp [maxOver, max_def]
  have hmin2 : minOver Prod.snd [((0 : ℚ), (0 : ℚ)), (10, 10)] = 0 := by
    simp [minOver, min_def]
  have hmax2 : maxOver Prod.snd [((0 : ℚ), (0 : ℚ)), (10, 10)] = 10 := by
    simp [maxOver, max_def]
  have hscale : orbitScale 100 100 4 [(0, 0), (10, 10)] = 184 / 5 := by
    unfold orbitScale
    rw [hmin, hmax, hmin2, hmax2]
    norm_num [bboxSpan]
  have hoffx : orbitOffX 100 100 4 [(0, 0), (10, 10)] = -134 := by
    unfold orbitOffX
    rw [hmin, hmax, hscale]
    norm_num
  have hoffy : orbitOffY 100 100 4 [(0, 0), (10, 10)] = -134 := by
    unfold orbitOffY
    rw [hmin2, hmax2, hscale]
    norm_num
  unfold orbitFrameMap
  rw [List.map_cons, List.map_cons, List.map_nil]
  rw [hscale, hoffx, hoffy]
  norm_num

/-- C6 amended: for every frame point list, viewport and positive
effective zoom at most 1, every mapped screen coordinate of the
bounding-box fit of orbitField.js lies inside the viewport (in fact
within the 0.92 margin); the guarantee does not extend to zoom settings
above 1, as the counterexample shows. -/
theorem orbit_frame_inside (W H z : ℚ) (pts : List (ℚ × ℚ))
    (hW : 0 < W) (hH : 0 < H) (hz : 0 < z) (hz1 : z ≤ 1) (hne : pts ≠ []) :
    ∀ p ∈ orbitFrameMap W H z pts, 0 ≤ p.1 ∧ p.1 ≤ W ∧ 0 ≤ p.2 ∧ p.2 ≤ H := by
  intro p hp
  rw [orbitFrameMap, List.mem_map] at hp
  obtain ⟨q, hq, rfl⟩ := hp
  have hs := orbitScale_nonneg W H z pts hW hH hz hne
  have hx := fit_coord (minOver Prod.fst pts) (maxOver Prod.fst pts) q.1 W z
    (orbitScale W H z pts) (minOver_le Prod.fst hq) (le_maxOver Prod.fst hq)
    hs (orbitScale_keyX W H z pts hz hne) hW hz1
  have hy := fit_coord (minOver Prod.snd pts) (maxOver Prod.snd pts) q.2 H z
    (orbitScale W H z pts) (minOver_le Prod.snd hq) (le_maxOver Prod.snd hq)
    hs (orbitScale_keyY W H z pts hz hne) hH hz1
  simp only [orbitOffX, orbitOffY]
  exact ⟨hx.1, hx.2, hy.1, hy.2⟩

/-- Witness for C6 amended at zoom 1 on a concrete frame. -/
theorem orbit_frame_inside_witness :
    (0 : ℚ) < 100 ∧ (0 : ℚ) < 1 ∧ (1 : ℚ) ≤ 1
    ∧ ([((0 : ℚ), (0 : ℚ)), (10, 10)] ≠ [])
    ∧ (∀ p ∈ orbitFrameMap 100 100 1 [((0 : ℚ), (0 : ℚ)), (10, 10)],
        0 ≤ p.1 ∧ p.1 ≤ 100 ∧ 0 ≤ p.2 ∧ p.2 ≤ 100) :=
  ⟨by norm_num, by norm_num, le_refl 1, by simp,
   orbit_frame_inside 100 100 1 [((0 : ℚ), (0 : ℚ)), (10, 10)]
     (by norm_num) (by norm_num) (by norm_num) (le_refl 1) (by simp)⟩

/-- C7 counterexample: orbitField.js reset zeroes only t; on a concrete
state with zoom phase 5 the phase survives reset, so reset does not zero
the zoom phase for every field. -/
theorem orbit_reset_keeps_zoomPhase_cex :
    ost0.zoomPhase = 5 ∧ (orbitReset ost0).zoomPhase = 5 ∧ ((5 : ℚ) ≠ 0)
    ∧ (orbitReset ost0).t = 0 :=
  ⟨rfl, rfl, by norm_num, rfl⟩

/-- C7 amended: reset zeroes logical time and the zoom phase in
templateField.js, zeroes only logical time in orbitField.js (the zoom
phase is preserved there), and in fireField.js clears the whole allocated
intensity buffer and the zoom phase; in all three the running flag and
the particle arrays, counts and grid dimensions are untouched. -/
theorem reset_effects (st : TField) (ost : OField) (fstate : FireState) :
    ((templateReset st).t = 0 ∧ (templateReset st).zoomPhase = 0
      ∧ (templateReset st).running = st.running
      ∧ (templateReset st).pts = st.pts ∧ (templateReset st).N = st.N)
    ∧ ((orbitReset ost).t = 0 ∧ (orbitReset ost).zoomPhase = ost.zoomPhase
      ∧ (orbitReset ost).running = ost.running ∧ (orbitReset ost).pts = ost.pts
      ∧ (orbitReset ost).N = ost.N)
    ∧ ((∀ i, i < fstate.bufLen → (fireReset fstate).buffer i = 0)
      ∧ (fireReset fstate).zoomPhase = 0
      ∧ (fireReset fstate).running = fstate.running
      ∧ (fireReset fstate).gridW = fstate.gridW
      ∧ (fireReset fstate).gridH = fstate.gridH) := by
  refine ⟨⟨rfl, rfl, rfl, rfl, rfl⟩, ⟨rfl, rfl, rfl, rfl, rfl⟩, ?_, rfl, rfl, rfl, rfl⟩
  intro i hi
  show (if i < fstate.bufLen then (0 : ℚ) else fstate.buffer i) = 0
  rw [if_pos hi]

/-- Witness for C7 amended on the concrete states, with the buffer-clear
conclusion instantiated at cell 0. -/
theorem reset_effects_witness :
    (fireReset fst0).buffer 0 = 0 ∧ (templateReset st0).t = 0
    ∧ (orbitReset ost0).t = 0 ∧ (fireReset fst0).running = fst0.running :=
  ⟨(reset_effects st0 ost0 fst0).2.2.1 0 (by norm_num [fst0]),
   (reset_effects st0 ost0 fst0).1.1,
   (reset_effects st0 ost0 fst0).2.1.1,
   (reset_effects st0 ost0 fst0).2.2.2.2.1⟩

theorem rebuild_events (layout : ℚ → ℚ → ℚ × ℚ) (rng : ℕ → ℚ) (st : TField) :
    (rebuildPointField layout rng st).2
      = [StatsEvent.points (computeTarget 6000 120000 st.baseDensity st.W st.H)] := by
  rw [rebuildPointField_eq]
  split
  next h => rw [jsEq_eq_true ((Bool.and_eq_true _ _).mp h).1]
  next _ => rfl

/-- C8: applying only a density value through setParams of
templateField.js while running invokes exactly one rebuild, leaves
logical time unchanged, and emits exactly one stats event, which carries
the newly clamped point count; applying any combination of speed, zoom
and zoomAuto without a density invokes no rebuild at all. -/
theorem setParams_density_single_rebuild (layout : ℚ → ℚ → ℚ × ℚ) (rng : ℕ → ℚ)
    (st : TField) (v : JsNum) (s z : Option ℚ) (za : Option Bool)
    (hrun : st.running = true) :
    (setParams layout rng ⟨none, some v, none, none⟩ st).2.2 = 1
    ∧ (setParams layout rng ⟨none, some v, none, none⟩ st).1.t = st.t
    ∧ (setParams layout rng ⟨none, some v, none, none⟩ st).2.1
        = [StatsEvent.points (computeTarget 6000 120000 v st.W st.H)]
    ∧ (setParams layout rng ⟨s, none, z, za⟩ st).2.2 = 0 := by
  refine ⟨rfl, ?_, ?_, ?_⟩
  · show (rebuildPointField layout rng { st with baseDensity := v }).1.t = st.t
    exact (rebuild_env layout rng _).2.2.2
  · show [] ++ (rebuildPointField layout rng { st with baseDensity := v }).2
      = [StatsEvent.points (computeTarget 6000 120000 v st.W st.H)]
    rw [List.nil_append, rebuild_events]
  · cases s <;> cases z <;> cases za <;> rfl

/-- Witness for C8 on the concrete running state with density 0.05. -/
theorem setParams_density_single_rebuild_witness :
    st0.running = true
    ∧ ((setParams (fun u v => (u, v)) (fun _ => (1 : ℚ) / 2)
          ⟨none, some (some (1 / 20)), none, none⟩ st0).2.2 = 1
      ∧ (setParams (fun u v => (u, v)) (fun _ => (1 : ℚ) / 2)
          ⟨none, some (some (1 / 20)), none, none⟩ st0).1.t = st0.t
      ∧ (setParams (fun u v => (u, v)) (fun _ => (1 : ℚ) / 2)
          ⟨none, some (some (1 / 20)), none, none⟩ st0).2.1
          = [StatsEvent.points (computeTarget 6000 120000 (some (1 / 20)) st0.W st0.H)]
      ∧ (setParams (fun u v => (u, v)) (fun _ => (1 : ℚ) / 2)
          ⟨some (7 / 10), none, some 2, some true⟩ st0).2.2 = 0) :=
  ⟨rfl, setParams_density_single_rebuild (fun u v => (u, v)) (fun _ => (1 : ℚ) / 2)
    st0 (some (1 / 20)) (some (7 / 10)) (some 2) (some true) rfl⟩

/-- C9 counterexample: a NaN density applied through setParams is not
clamped to a bound: Math.floor, Math.max and Math.min propagate the NaN,
the strict-equality no-op check fails against NaN, and the rebuilt state
stores a NaN count, which lies in no bound interval at all. -/
theorem nan_density_not_clamped_cex :
    (setParams (fun u v => (u, v)) (fun _ => (1 : ℚ) / 2)
        ⟨none, some none, none, none⟩ st0).1.N = none
    ∧ ¬ jsInBounds 6000 120000
        (setParams (fun u v => (u, v)) (fun _ => (1 : ℚ) / 2)
          ⟨none, some none, none, none⟩ st0).1.N := by
  have hN : (setParams (fun u v => (u, v)) (fun _ => (1 : ℚ) / 2)
      ⟨none, some none, none, none⟩ st0).1.N = none := by
    show (rebuildPointField (fun u v => (u, v)) (fun _ => (1 : ℚ) / 2)
      { st0 with baseDensity := none }).1.N = none
    rw [rebuild_N]
    rfl
  refine ⟨hN, ?_⟩
  rw [hN]
  rintro ⟨q, hq, -, -⟩
  simp at hq

/-- C9 amended: a negative density applied through setParams is clamped to
the nearest bound: the realized count is exactly minPoints, hence within
the bounds, with no error; a NaN density, by contrast, is not clamped, as
the counterexample shows. -/
theorem negative_density_clamped_to_min (layout : ℚ → ℚ → ℚ × ℚ) (rng : ℕ → ℚ)
    (st : TField) (d : ℚ) (hd : d < 0) (hW : 0 ≤ st.W) (hH : 0 ≤ st.H) :
    (setParams layout rng ⟨none, some (some d), none, none⟩ st).1.N = some 6000
    ∧ jsInBounds 6000 120000
        (setParams layout rng ⟨none, some (some d), none, none⟩ st).1.N := by
  have hfloor : ((⌊d * (st.W * st.H)⌋ : ℤ) : ℚ) ≤ 0 := by
    have hprod : d * (st.W * st.H) ≤ 0 :=
      mul_nonpos_iff.mpr (Or.inr ⟨hd.le, mul_nonneg hW hH⟩)
    have h1 : ⌊d * (st.W * st.H)⌋ ≤ 0 := by
      have h2 := Int.floor_le_floor (α := ℚ) hprod
      simpa using h2
    exact_mod_cast h1
  have hN : (setParams layout rng ⟨none, some (some d), none, none⟩ st).1.N
      = some 6000 := by
    show (rebuildPointField layout rng { st with baseDensity := some d }).1.N
      = some 6000
    rw [rebuild_N]
    show computeTarget 6000 120000 (some d) st.W st.H = some 6000
    rw [computeTarget_some, max_eq_left (by linarith), min_eq_right (by norm_num)]
  exact ⟨hN, 6000, hN, le_refl 6000, by norm_num⟩

/-- Witness for C9 amended: density -1 on the concrete state realizes
exactly the minimum point count 6000. -/
theorem negative_density_clamped_to_min_witness :
    (-1 : ℚ) < 0 ∧ (0 : ℚ) ≤ st0.W ∧ (0 : ℚ) ≤ st0.H
    ∧ ((setParams (fun u v => (u, v)) (fun _ => (1 : ℚ) / 2)
          ⟨none, some (some (-1)), none, none⟩ st0).1.N = some 6000
      ∧ jsInBounds 6000 120000
          (setParams (fun u v => (u, v)) (fun _ => (1 : ℚ) / 2)
            ⟨none, some (some (-1)), none, none⟩ st0).1.N) :=
  ⟨by norm_num, by norm_num [st0], by norm_num [st0],
   negative_density_clamped_to_min (fun u v => (u, v)) (fun _ => (1 : ℚ) / 2) st0 (-1)
     (by norm_num) (by norm_num [st0]) (by norm_num [st0])⟩

theorem orbitRebuild_pts (st : OField)
    (hinv : st.pts = orbitBuildArrays (jsToLength st.N)) :
    (orbitRebuildPointField st).1.pts
      = orbitBuildArrays
          (jsToLength (computeTarget 6000 120000 st.baseDensity st.W st.H)) := by
  rw [orbitRebuild_eq]
  split
  next h =>
    rw [jsEq_eq_true h]
    exact hinv
  next _ => rfl

/-- C10: the orbit base layout is deterministic: any two rebuilds of
orbitField.js whose clamped targets agree produce element-wise identical
base arrays, namely the pure index functions (i+1) mod 200 and (i+1)/43,
with no randomness consumed; the other fields draw their layouts from the
random supply instead. -/
theorem orbit_layout_deterministic (st1 st2 : OField)
    (h1 : st1.pts = orbitBuildArrays (jsToLength st1.N))
    (h2 : st2.pts = orbitBuildArrays (jsToLength st2.N))
    (hT : computeTarget 6000 120000 st1.baseDensity st1.W st1.H
        = computeTarget 6000 120000 st2.baseDensity st2.W st2.H) :
    (orbitRebuildPointField st1).1.pts = (orbitRebuildPointField st2).1.pts
    ∧ (orbitRebuildPointField st1).1.pts
        = orbitBuildArrays
            (jsToLength (computeTarget 6000 120000 st1.baseDensity st1.W st1.H))
    ∧ (∀ n i, i < n → (orbitBuildArrays n).get? i
        = some ((((i + 1) % 200 : ℕ) : ℚ), ((i : ℚ) + 1) / 43)) := by
  refine ⟨?_, orbitRebuild_pts st1 h1, ?_⟩
  · rw [orbitRebuild_pts st1 h1, orbitRebuild_pts st2 h2, hT]
  · intro n i hi
    rw [orbitBuildArrays, List.get?_map, List.get?_range hi]
    rfl

/-- Witness for C10: two concrete orbit states with different densities
and different prior counts but the same clamped target 6000 rebuild to
identical arrays. -/
theorem orbit_layout_deterministic_witness :
    ost0.pts = orbitBuildArrays (jsToLength ost0.N)
    ∧ ost1.pts = orbitBuildArrays (jsToLength ost1.N)
    ∧ computeTarget 6000 120000 ost0.baseDensity ost0.W ost0.H
        = computeTarget 6000 120000 ost1.baseDensity ost1.W ost1.H
    ∧ ((orbitRebuildPointField ost0).1.pts = (orbitRebuildPointField ost1).1.pts
      ∧ (orbitRebuildPointField ost0).1.pts
          = orbitBuildArrays
              (jsToLength (computeTarget 6000 120000 ost0.baseDensity ost0.W ost0.H))
      ∧ (∀ n i, i < n → (orbitBuildArrays n).get? i
          = some ((((i + 1) % 200 : ℕ) : ℚ), ((i : ℚ) + 1) / 43))) := by
  have hl0 : jsToLength (some (6000 : ℚ)) = 6000 := rfl
  have hl1 : jsToLength (some (7000 : ℚ)) = 7000 := rfl
  have hN0 : ost0.N = some (6000 : ℚ) := rfl
  have hN1 : ost1.N = some (7000 : ℚ) := rfl
  have hp0 : ost0.pts = orbitBuildArrays 6000 := by simp only [ost0]
  have hp1 : ost1.pts = orbitBuildArrays 7000 := by simp only [ost1]
  have h1 : ost0.pts = orbitBuildArrays (jsToLength ost0.N) := by
    rw [hp0, hN0, hl0]
  have h2 : ost1.pts = orbitBuildArrays (jsToLength ost1.N) := by
    rw [hp1, hN1, hl1]
  have hT : computeTarget 6000 120000 ost0.baseDensity ost0.W ost0.H
      = computeTarget 6000 120000 ost1.baseDensity ost1.W ost1.H := by
    show computeTarget 6000 120000 (some (1 / 200)) 800 600
      = computeTarget 6000 120000 (some (1 / 100000)) 800 600
    rw [computeTarget_some, computeTarget_some]
    norm_num
  exact ⟨h1, h2, hT, orbit_layout_deterministic ost0 ost1 h1 h2 hT⟩

end LiveBG
